import Mathlib

/-!
Verification of the ledger engine of the MBA_Project repository.

The definitions below are shallow embeddings of the Python sources:

* `DepositComand.execute`, `WithdrawCommand.execute`, `TransferCommand.execute`
  embed the command classes of `solid_app/commands.py` and
  `solid_app/helpers/commands.py` (the two files implement the same logic).
* `RealAccount.update_balance` embeds `solid_app/helpers/proxies.py`.
* `AccountOperations.deposit` / `withdraw` / `transfer` embed
  `no_solid_app/helpers/account_operations.py`.
* `TransactionFacade.process_deposit` embeds
  `no_solid_app/helpers/facade.py` (with its two separate commit points).
* `GetTransactionsCommand.query` and
  `TransactionFacade.get_transaction_history` embed the two history listings.

Monetary values are embedded as `Int` (Python `Decimal` arithmetic restricted
to the additions, subtractions and comparisons the code performs is exact, so
`Int` is a faithful carrier for it); account and row identifiers are `Nat`.
The SQL session is embedded as an explicit state holding the account rows and
the transaction rows; a query `.first()` is `List.find?` and an update of the
row returned by `.first()` is `adjustFirst`.
-/

inductive AccountType
  | checking
  | savings
deriving DecidableEq, Repr

inductive AccountStatus
  | active
  | blocked
  | closed
deriving DecidableEq, Repr

/-- Account row: `account_id` (the looked-up key), `balance`, `account_type`,
`status`, from the `Account` models of both apps. -/
structure Account where
  accId : Nat
  balance : Int
  accType : AccountType
  status : AccountStatus
deriving DecidableEq, Repr

inductive TransactionType
  | deposit
  | withdraw
  | transfer
deriving DecidableEq, Repr

inductive TransactionStatus
  | completed
  | rejected
deriving DecidableEq, Repr

/-- Transaction row as created by the commands of `solid_app` and by
`AccountOperations`: a type, an amount, a status and the optional
source/destination account references. -/
structure Transaction where
  ttype : TransactionType
  amount : Int
  tstatus : TransactionStatus
  from_account_id : Option Nat
  to_account_id : Option Nat
deriving DecidableEq, Repr

/-- The persistent state the commands act on: the account table and the
transaction table. -/
structure LedgerState where
  accounts : List Account
  log : List Transaction
deriving DecidableEq, Repr

/-- `session.exec(select(Account).where(Account.account_id == i)).first()`. -/
def findAccount (accounts : List Account) (i : Nat) : Option Account :=
  accounts.find? (fun a => a.accId == i)

/-- Mutating the balance of the row returned by `.first()`: the first account
whose `account_id` matches gets `d` added to its balance; later duplicates are
untouched, mirroring the single-row ORM update. -/
def adjustFirst : List Account → Nat → Int → List Account
  | [], _, _ => []
  | a :: rest, i, d =>
    if a.accId == i then { a with balance := a.balance + d } :: rest
    else a :: adjustFirst rest i d

/-- The two failure modes the command classes signal by raising `ValueError`. -/
inductive CommandError
  | notFound
  | insufficientFunds
deriving DecidableEq, Repr

/-- `DepositComand.execute` from `solid_app/commands.py` (the class name keeps
the source spelling): look the account up, build a COMPLETED DEPOSIT
transaction, add the amount to the balance, commit both. -/
def DepositComand.execute (st : LedgerState) (account_id : Nat) (amount : Int) :
    Except CommandError LedgerState :=
  match findAccount st.accounts account_id with
  | none => .error .notFound
  | some account =>
    let transaction : Transaction :=
      { ttype := .deposit, amount := amount, tstatus := .completed,
        from_account_id := none, to_account_id := some account.accId }
    .ok { accounts := adjustFirst st.accounts account_id amount,
          log := st.log ++ [transaction] }

/-- `WithdrawCommand.execute` from `solid_app/commands.py` and
`solid_app/helpers/commands.py`: not-found check, then
`if account.balance < self.amount` raises insufficient funds, otherwise the
balance is decremented and a COMPLETED WITHDRAW transaction committed. -/
def WithdrawCommand.execute (st : LedgerState) (account_id : Nat) (amount : Int) :
    Except CommandError LedgerState :=
  match findAccount st.accounts account_id with
  | none => .error .notFound
  | some account =>
    if account.balance < amount then .error .insufficientFunds
    else
      let transaction : Transaction :=
        { ttype := .withdraw, amount := amount, tstatus := .completed,
          from_account_id := some account.accId, to_account_id := none }
      .ok { accounts := adjustFirst st.accounts account_id (-amount),
            log := st.log ++ [transaction] }

/-- `TransferCommand.execute` from `solid_app/commands.py` and
`solid_app/helpers/commands.py`: source lookup, source funds check, destination
lookup (in that order), then debit source, credit destination and commit one
COMPLETED TRANSFER transaction referencing both. -/
def TransferCommand.execute (st : LedgerState)
    (from_account_id to_account_id : Nat) (amount : Int) :
    Except CommandError LedgerState :=
  match findAccount st.accounts from_account_id with
  | none => .error .notFound
  | some from_account =>
    if from_account.balance < amount then .error .insufficientFunds
    else
      match findAccount st.accounts to_account_id with
      | none => .error .notFound
      | some to_account =>
        let transaction : Transaction :=
          { ttype := .transfer, amount := amount, tstatus := .completed,
            from_account_id := some from_account.accId,
            to_account_id := some to_account.accId }
        .ok { accounts :=
                adjustFirst (adjustFirst st.accounts from_account_id (-amount))
                  to_account_id amount,
              log := st.log ++ [transaction] }

/-- One requested ledger operation, dispatched to the command classes the way
the transaction routes of `solid_app/main.py` build them. -/
inductive Op
  | deposit (account_id : Nat) (amount : Int)
  | withdraw (account_id : Nat) (amount : Int)
  | transfer (from_id to_id : Nat) (amount : Int)
deriving DecidableEq, Repr

def applyOp (st : LedgerState) : Op → Except CommandError LedgerState
  | .deposit i a => DepositComand.execute st i a
  | .withdraw i a => WithdrawCommand.execute st i a
  | .transfer f t a => TransferCommand.execute st f t a

/-- Run a sequence of requested operations; a raised error leaves the state as
it was (the failed request mutates nothing) and the run continues with the
remaining requests. -/
def runOps : LedgerState → List Op → LedgerState
  | st, [] => st
  | st, op :: rest =>
    match applyOp st op with
    | .ok st2 => runOps st2 rest
    | .error _ => runOps st rest

def sumBalances : List Account → Int
  | [] => 0
  | a :: rest => a.balance + sumBalances rest

/-- Net balance effect a committed transaction record claims: `+amount` for a
DEPOSIT, `-amount` for a WITHDRAW, `0` for a TRANSFER. -/
def txDelta (t : Transaction) : Int :=
  match t.ttype with
  | .deposit => t.amount
  | .withdraw => -t.amount
  | .transfer => 0

def netFlow : List Transaction → Int
  | [] => 0
  | t :: rest => txDelta t + netFlow rest

def sumDeposited : List Transaction → Int
  | [] => 0
  | t :: rest =>
    (match t.ttype with | .deposit => t.amount | _ => 0) + sumDeposited rest

def sumWithdrawn : List Transaction → Int
  | [] => 0
  | t :: rest =>
    (match t.ttype with | .withdraw => t.amount | _ => 0) + sumWithdrawn rest

theorem adjustFirst_sum (l : List Account) (i : Nat) (d : Int)
    (h : (findAccount l i).isSome = true) :
    sumBalances (adjustFirst l i d) = sumBalances l + d := by
  induction l with
  | nil => simp [findAccount] at h
  | cons b rest ih =>
    by_cases hb : (b.accId == i) = true
    · simp [adjustFirst, hb, sumBalances]
      ring
    · have h2 : (findAccount rest i).isSome = true := by
        simpa [findAccount, List.find?_cons, hb] using h
      simp [adjustFirst, hb, sumBalances, ih h2]
      ring

theorem findAccount_adjustFirst (l : List Account) (i j : Nat) (d : Int) :
    (findAccount (adjustFirst l i d) j).isSome = (findAccount l j).isSome := by
  induction l with
  | nil => rfl
  | cons b rest ih =>
    by_cases hb : (b.accId == i) = true
    · simp [adjustFirst, hb, findAccount, List.find?_cons]
      by_cases hj : (b.accId == j) = true <;> simp [hj]
    · by_cases hj : (b.accId == j) = true <;>
        simp [adjustFirst, hb, findAccount, List.find?_cons, hj] <;>
        simpa [findAccount] using ih

/-- Shape of every successful command: it appends exactly one COMPLETED
transaction record and shifts the total of the balances by exactly the delta
that record describes. -/
theorem applyOp_ok_shape (st st2 : LedgerState) (op : Op)
    (h : applyOp st op = .ok st2) :
    ∃ t, st2.log = st.log ++ [t] ∧ t.tstatus = .completed ∧
      sumBalances st2.accounts = sumBalances st.accounts + txDelta t := by
  cases op with
  | deposit i amt =>
    simp only [applyOp, DepositComand.execute] at h
    cases hf : findAccount st.accounts i with
    | none => rw [hf] at h; exact absurd h (by simp)
    | some account =>
      rw [hf] at h
      simp only [Except.ok.injEq] at h
      subst h
      refine ⟨_, rfl, rfl, ?_⟩
      simpa [txDelta] using adjustFirst_sum st.accounts i amt (by simp [hf])
  | withdraw i amt =>
    simp only [applyOp, WithdrawCommand.execute] at h
    cases hf : findAccount st.accounts i with
    | none => rw [hf] at h; exact absurd h (by simp)
    | some account =>
      simp only [hf] at h
      by_cases hlt : account.balance < amt
      · rw [if_pos hlt] at h; exact absurd h (by simp)
      · rw [if_neg hlt] at h
        simp only [Except.ok.injEq] at h
        subst h
        refine ⟨_, rfl, rfl, ?_⟩
        simpa [txDelta] using adjustFirst_sum st.accounts i (-amt) (by simp [hf])
  | transfer f t amt =>
    simp only [applyOp, TransferCommand.execute] at h
    cases hf : findAccount st.accounts f with
    | none => rw [hf] at h; exact absurd h (by simp)
    | some from_account =>
      simp only [hf] at h
      by_cases hlt : from_account.balance < amt
      · rw [if_pos hlt] at h; exact absurd h (by simp)
      · rw [if_neg hlt] at h
        cases ht : findAccount st.accounts t with
        | none => rw [ht] at h; exact absurd h (by simp)
        | some to_account =>
          simp only [ht] at h
          simp only [Except.ok.injEq] at h
          subst h
          refine ⟨_, rfl, rfl, ?_⟩
          have h1 : sumBalances (adjustFirst st.accounts f (-amt)) =
              sumBalances st.accounts + (-amt) :=
            adjustFirst_sum st.accounts f (-amt) (by simp [hf])
          have h2 : (findAccount (adjustFirst st.accounts f (-amt)) t).isSome = true := by
            rw [findAccount_adjustFirst]; simp [ht]
          have h3 := adjustFirst_sum (adjustFirst st.accounts f (-amt)) t amt h2
          simp [txDelta, h3, h1]

theorem netFlow_append_single (l : List Transaction) (t : Transaction) :
    netFlow (l ++ [t]) = netFlow l + txDelta t := by
  induction l with
  | nil => simp [netFlow]
  | cons b rest ih => simp [netFlow, ih]; ring

theorem runOps_invariant (ops : List Op) (st : LedgerState) :
    sumBalances (runOps st ops).accounts - netFlow (runOps st ops).log =
      sumBalances st.accounts - netFlow st.log := by
  induction ops generalizing st with
  | nil => rfl
  | cons op rest ih =>
    cases h : applyOp st op with
    | ok st2 =>
      have ⟨t, hlog, _, hsum⟩ := applyOp_ok_shape st st2 op h
      have := ih st2
      simp only [runOps, h] at this ⊢
      rw [this, hlog, netFlow_append_single, hsum]
      ring
    | error e =>
      have := ih st
      simp only [runOps, h] at this ⊢
      exact this

theorem netFlow_eq (log : List Transaction) :
    netFlow log = sumDeposited log - sumWithdrawn log := by
  induction log with
  | nil => rfl
  | cons t rest ih =>
    cases ht : t.ttype <;>
      simp only [netFlow, sumDeposited, sumWithdrawn, txDelta, ht, ih] <;> ring

/-- C1: for every sequence of requested operations applied to an initial set
of balances (empty transaction table), the sum of the final balances equals
the sum of the initial balances plus the amounts of the committed DEPOSIT
records minus the amounts of the committed WITHDRAW records; TRANSFER records
contribute to neither sum, i.e. zero net change. -/
theorem conservation (accounts : List Account) (ops : List Op) :
    sumBalances (runOps ⟨accounts, []⟩ ops).accounts =
      sumBalances accounts +
        (sumDeposited (runOps ⟨accounts, []⟩ ops).log -
          sumWithdrawn (runOps ⟨accounts, []⟩ ops).log) := by
  have h := runOps_invariant ops ⟨accounts, []⟩
  rw [netFlow_eq] at h
  simp only [netFlow] at h
  omega

/-- `RealAccount.update_balance` from `solid_app/helpers/proxies.py`, the
backend of the `PUT /accounts/.../balance` route of `solid_app/main.py`:
look the account up (returning `false` when absent), add the signed amount to
its balance and commit; no transaction row is created anywhere on this path. -/
def RealAccount.update_balance (st : LedgerState) (account_id : Nat)
    (amount : Int) : Bool × LedgerState :=
  match findAccount st.accounts account_id with
  | none => (false, st)
  | some _ => (true, { st with accounts := adjustFirst st.accounts account_id amount })

/-- Minimum balance per account type, from the `get_features` tables of
`CheckingAccountFactory` and `SavingsAccountFactory` in
`no_solid_app/helpers/account_factory.py`. -/
def minimum_balance : AccountType → Int
  | .checking => 0
  | .savings => 100

/-- Debiting and then crediting the same amount on the same account key gives
back the original account table. -/
theorem adjustFirst_cancel (l : List Account) (i : Nat) (d : Int) :
    adjustFirst (adjustFirst l i (-d)) i d = l := by
  induction l with
  | nil => rfl
  | cons b rest ih =>
    by_cases hb : (b.accId == i) = true
    · simp [adjustFirst, hb]
    · simp [adjustFirst, hb, ih]

/-- C10: in `TransferCommand.execute` the source funds check runs before the
destination account is looked up, so a source with insufficient balance is
always reported as insufficient funds, whatever destination id is passed and
whether or not it exists. -/
theorem transfer_checks_funds_before_destination (st : LedgerState)
    (from_id to_id : Nat) (amount : Int) (a : Account)
    (hfind : findAccount st.accounts from_id = some a)
    (hlt : a.balance < amount) :
    TransferCommand.execute st from_id to_id amount = .error .insufficientFunds := by
  simp only [TransferCommand.execute, hfind]
  rw [if_pos hlt]

/-- C10 witness: one account with balance 50; transferring 100 from it to the
absent account 2 reports insufficient funds, not a missing destination. -/
theorem transfer_checks_funds_before_destination_witness :
    TransferCommand.execute ⟨[⟨1, 50, .checking, .active⟩], []⟩ 1 2 100 =
      .error .insufficientFunds :=
  transfer_checks_funds_before_destination ⟨[⟨1, 50, .checking, .active⟩], []⟩
    1 2 100 ⟨1, 50, .checking, .active⟩ rfl (by decide)

/-- C2 counterexample: `RealAccount.update_balance` (the PUT balance route)
reports success, changes the account table, and leaves the transaction table
untouched — a balance mutation with no Transaction record. -/
theorem update_balance_mutates_without_record :
    (RealAccount.update_balance ⟨[⟨1, 100, .checking, .active⟩], []⟩ 1 50).1 = true ∧
    (RealAccount.update_balance ⟨[⟨1, 100, .checking, .active⟩], []⟩ 1 50).2.accounts ≠
      [⟨1, 100, .checking, .active⟩] ∧
    (RealAccount.update_balance ⟨[⟨1, 100, .checking, .active⟩], []⟩ 1 50).2.log = [] := by
  refine ⟨rfl, ?_, rfl⟩
  decide

/-- C2 (amended): every successful Deposit, Withdraw or Transfer command
appends exactly one COMPLETED Transaction record whose delta is the balance
change it performed; but `RealAccount.update_balance` changes a balance while
appending no record, so the invariant does not cover the whole system. -/
theorem mutation_logging (st st2 : LedgerState) (op : Op)
    (h : applyOp st op = .ok st2) :
    (∃ t, st2.log = st.log ++ [t] ∧ t.tstatus = .completed ∧
      sumBalances st2.accounts = sumBalances st.accounts + txDelta t) ∧
    (∀ i amt, ((RealAccount.update_balance st i amt).2).log = st.log) := by
  refine ⟨applyOp_ok_shape st st2 op h, ?_⟩
  intro i amt
  unfold RealAccount.update_balance
  cases hf : findAccount st.accounts i <;> simp

/-- C2 witness: the amended statement instantiated at a concrete deposit. -/
theorem mutation_logging_witness :
    (∃ t, (⟨[⟨1, 150, .checking, .active⟩],
        [⟨.deposit, 50, .completed, none, some 1⟩]⟩ : LedgerState).log =
        (⟨[⟨1, 100, .checking, .active⟩], []⟩ : LedgerState).log ++ [t] ∧
      t.tstatus = .completed ∧
      sumBalances (⟨[⟨1, 150, .checking, .active⟩],
          [⟨.deposit, 50, .completed, none, some 1⟩]⟩ : LedgerState).accounts =
        sumBalances (⟨[⟨1, 100, .checking, .active⟩], []⟩ : LedgerState).accounts + txDelta t) ∧
    (∀ i amt,
      ((RealAccount.update_balance
          (⟨[⟨1, 100, .checking, .active⟩], []⟩ : LedgerState) i amt).2).log =
        (⟨[⟨1, 100, .checking, .active⟩], []⟩ : LedgerState).log) :=
  mutation_logging ⟨[⟨1, 100, .checking, .active⟩], []⟩
    ⟨[⟨1, 150, .checking, .active⟩], [⟨.deposit, 50, .completed, none, some 1⟩]⟩
    (.deposit 1 50) rfl

/-- C4 counterexample: a SAVINGS account with balance 150 and a withdrawal of
100 breach the savings floor of 100 (150 - 100 < 100), yet
`WithdrawCommand.execute` completes the withdrawal down to balance 50 instead
of raising insufficient funds. -/
theorem withdraw_ignores_savings_floor :
    (150 : Int) - 100 < minimum_balance .savings ∧
    WithdrawCommand.execute ⟨[⟨1, 150, .savings, .active⟩], []⟩ 1 100 =
      .ok ⟨[⟨1, 50, .savings, .active⟩], [⟨.withdraw, 100, .completed, some 1, none⟩]⟩ := by
  exact ⟨by decide, rfl⟩

/-- C4 (amended): for an existing account, `WithdrawCommand.execute` fails
with insufficient funds exactly when `balance < amount` — a floor of zero for
every account type; the per-type `minimum_balance` feature is never consulted.
On that failure the run leaves the state unchanged: no mutation, no record. -/
theorem withdraw_floor_is_zero (st : LedgerState) (i : Nat) (amount : Int)
    (a : Account) (hfind : findAccount st.accounts i = some a) :
    (WithdrawCommand.execute st i amount = .error .insufficientFunds ↔
      a.balance < amount) ∧
    (a.balance < amount → runOps st [.withdraw i amount] = st) := by
  constructor
  · constructor
    · intro h
      by_contra hlt
      simp only [WithdrawCommand.execute, hfind] at h
      rw [if_neg hlt] at h
      exact absurd h (by simp)
    · intro hlt
      simp only [WithdrawCommand.execute, hfind]
      rw [if_pos hlt]
  · intro hlt
    simp only [runOps, applyOp, WithdrawCommand.execute, hfind]
    rw [if_pos hlt]

/-- C4 witness: the amended statement at a checking account of balance 100 and
a withdrawal of 500 (Scenario 2 of the spec). -/
theorem withdraw_floor_is_zero_witness :
    (WithdrawCommand.execute ⟨[⟨1, 100, .checking, .active⟩], []⟩ 1 500 =
        .error .insufficientFunds ↔ (100 : Int) < 500) ∧
    ((100 : Int) < 500 →
      runOps ⟨[⟨1, 100, .checking, .active⟩], []⟩ [.withdraw 1 500] =
        ⟨[⟨1, 100, .checking, .active⟩], []⟩) :=
  withdraw_floor_is_zero ⟨[⟨1, 100, .checking, .active⟩], []⟩ 1 500
    ⟨1, 100, .checking, .active⟩ rfl

/-- C5 counterexample: `Transfer(A, A, 10)` on an account with balance 100 is
not rejected with a same-account error: it completes, leaves the table as it
was (the debit and credit cancel) and commits one COMPLETED TRANSFER record. -/
theorem transfer_same_account_completes :
    TransferCommand.execute ⟨[⟨1, 100, .checking, .active⟩], []⟩ 1 1 10 =
      .ok ⟨[⟨1, 100, .checking, .active⟩], [⟨.transfer, 10, .completed, some 1, some 1⟩]⟩ := by
  rfl

/-- C5 (amended): no command rejects a same-account transfer; whenever the
account exists and has the funds, `Transfer(A, A, amount)` completes, every
balance is left unchanged, and one COMPLETED TRANSFER record naming A on both
sides is appended. -/
theorem transfer_same_account_no_reject (st : LedgerState) (i : Nat)
    (amount : Int) (a : Account)
    (hfind : findAccount st.accounts i = some a)
    (hge : ¬ a.balance < amount) :
    TransferCommand.execute st i i amount =
      .ok ⟨st.accounts,
        st.log ++ [⟨.transfer, amount, .completed, some a.accId, some a.accId⟩]⟩ := by
  simp only [TransferCommand.execute, hfind]
  rw [if_neg hge]
  simp only [adjustFirst_cancel]

/-- C5 witness: the amended statement at Scenario 5's input
`Transfer(A, A, 10)`. -/
theorem transfer_same_account_no_reject_witness :
    TransferCommand.execute ⟨[⟨1, 100, .checking, .active⟩], []⟩ 1 1 10 =
      .ok ⟨[⟨1, 100, .checking, .active⟩],
        [] ++ [⟨.transfer, 10, .completed, some 1, some 1⟩]⟩ :=
  transfer_same_account_no_reject ⟨[⟨1, 100, .checking, .active⟩], []⟩ 1 10
    ⟨1, 100, .checking, .active⟩ rfl (by decide)

/-- The failure modes `AccountOperations` signals by raising `HTTPException`:
400 for a non-positive amount, 404 for a missing account, 400 for
insufficient funds. -/
inductive OperationError
  | invalidArgument
  | notFound
  | insufficientFunds
deriving DecidableEq, Repr

/-- `AccountOperations.deposit` from
`no_solid_app/helpers/account_operations.py`: reject `amount <= 0` before
opening the session, look the account up, add the amount, commit the balance
change together with a COMPLETED DEPOSIT record. -/
def AccountOperations.deposit (st : LedgerState) (account_uuid : Nat)
    (amount : Int) : Except OperationError LedgerState :=
  if amount ≤ 0 then .error .invalidArgument
  else
    match findAccount st.accounts account_uuid with
    | none => .error .notFound
    | some account =>
      .ok { accounts := adjustFirst st.accounts account_uuid amount,
            log := st.log ++
              [⟨.deposit, amount, .completed, none, some account.accId⟩] }

/-- `AccountOperations.withdraw` from
`no_solid_app/helpers/account_operations.py`: amount check, lookup, funds
check, then debit and commit with a COMPLETED WITHDRAW record. -/
def AccountOperations.withdraw (st : LedgerState) (account_uuid : Nat)
    (amount : Int) : Except OperationError LedgerState :=
  if amount ≤ 0 then .error .invalidArgument
  else
    match findAccount st.accounts account_uuid with
    | none => .error .notFound
    | some account =>
      if account.balance < amount then .error .insufficientFunds
      else
        .ok { accounts := adjustFirst st.accounts account_uuid (-amount),
              log := st.log ++
                [⟨.withdraw, amount, .completed, some account.accId, none⟩] }

/-- `AccountOperations.transfer` from
`no_solid_app/helpers/account_operations.py`: amount check, source lookup,
destination lookup, funds check (in that order), then debit source, credit
destination and commit one COMPLETED TRANSFER record. -/
def AccountOperations.transfer (st : LedgerState)
    (from_account_uuid to_account_uuid : Nat) (amount : Int) :
    Except OperationError LedgerState :=
  if amount ≤ 0 then .error .invalidArgument
  else
    match findAccount st.accounts from_account_uuid with
    | none => .error .notFound
    | some from_account =>
      match findAccount st.accounts to_account_uuid with
      | none => .error .notFound
      | some to_account =>
        if from_account.balance < amount then .error .insufficientFunds
        else
          .ok { accounts :=
                  adjustFirst (adjustFirst st.accounts from_account_uuid (-amount))
                    to_account_uuid amount,
                log := st.log ++
                  [⟨.transfer, amount, .completed, some from_account.accId,
                    some to_account.accId⟩] }

/-- C6 counterexample: a BLOCKED account accepts a deposit —
`AccountOperations.deposit` never reads the `status` column, so the mutation
goes through and a record is written instead of an account-not-active
rejection. -/
theorem deposit_on_blocked_account_succeeds :
    AccountOperations.deposit ⟨[⟨1, 100, .checking, .blocked⟩], []⟩ 1 50 =
      .ok ⟨[⟨1, 150, .checking, .blocked⟩],
        [⟨.deposit, 50, .completed, none, some 1⟩]⟩ := by
  rfl

/-- C6 (amended): no operation consults the account `status`; for any account
whose status is not ACTIVE (BLOCKED or CLOSED), deposit, withdraw and transfer
still complete and mutate the balance whenever the other preconditions
(positive amount, existing account, sufficient funds) hold. -/
theorem operations_ignore_status (st : LedgerState) (i : Nat) (amount : Int)
    (a : Account) (hpos : 0 < amount)
    (hfind : findAccount st.accounts i = some a)
    (hstat : a.status ≠ .active) (hfunds : ¬ a.balance < amount) :
    AccountOperations.deposit st i amount =
      .ok ⟨adjustFirst st.accounts i amount,
        st.log ++ [⟨.deposit, amount, .completed, none, some a.accId⟩]⟩ ∧
    AccountOperations.withdraw st i amount =
      .ok ⟨adjustFirst st.accounts i (-amount),
        st.log ++ [⟨.withdraw, amount, .completed, some a.accId, none⟩]⟩ ∧
    AccountOperations.transfer st i i amount =
      .ok ⟨st.accounts,
        st.log ++ [⟨.transfer, amount, .completed, some a.accId, some a.accId⟩]⟩ := by
  have hnp : ¬ amount ≤ 0 := by omega
  refine ⟨?_, ?_, ?_⟩
  · simp only [AccountOperations.deposit]
    rw [if_neg hnp]
    simp only [hfind]
  · simp only [AccountOperations.withdraw]
    rw [if_neg hnp]
    simp only [hfind]
    rw [if_neg hfunds]
  · simp only [AccountOperations.transfer]
    rw [if_neg hnp]
    simp only [hfind]
    rw [if_neg hfunds]
    simp only [adjustFirst_cancel]

/-- C6 witness: the amended statement at a BLOCKED account of balance 100 and
amount 50. -/
theorem operations_ignore_status_witness :
    AccountOperations.deposit ⟨[⟨1, 100, .checking, .blocked⟩], []⟩ 1 50 =
      .ok ⟨adjustFirst [⟨1, 100, .checking, .blocked⟩] 1 50,
        [] ++ [⟨.deposit, 50, .completed, none, some 1⟩]⟩ ∧
    AccountOperations.withdraw ⟨[⟨1, 100, .checking, .blocked⟩], []⟩ 1 50 =
      .ok ⟨adjustFirst [⟨1, 100, .checking, .blocked⟩] 1 (-50),
        [] ++ [⟨.withdraw, 50, .completed, some 1, none⟩]⟩ ∧
    AccountOperations.transfer ⟨[⟨1, 100, .checking, .blocked⟩], []⟩ 1 1 50 =
      .ok ⟨[⟨1, 100, .checking, .blocked⟩],
        [] ++ [⟨.transfer, 50, .completed, some 1, some 1⟩]⟩ :=
  operations_ignore_status ⟨[⟨1, 100, .checking, .blocked⟩], []⟩ 1 50
    ⟨1, 100, .checking, .blocked⟩ (by decide) rfl (by decide) (by decide)

/-- Transaction row of `no_solid_app/helpers/facade.py` and its
`database/models.py` `Transaction` table: owning `account_id`, optional
`destination_account_id`, a type tag and the amount. -/
structure FacadeTransaction where
  account_id : Nat
  destination_account_id : Option Nat
  transaction_type : TransactionType
  amount : Int
deriving DecidableEq, Repr

/-- State acted on by the facade of `no_solid_app/helpers/facade.py`. -/
structure FacadeState where
  accounts : List Account
  log : List FacadeTransaction
deriving DecidableEq, Repr

/-- `AccountUpdater.add_funds` from `no_solid_app/helpers/facade.py`:
`account.balance += amount` followed by its own `db.commit()`. -/
def AccountUpdater.add_funds (accounts : List Account) (account_id : Nat)
    (amount : Int) : List Account :=
  adjustFirst accounts account_id amount

/-- Outcome of a facade operation: success, a 404 before any mutation, or a
storage failure raised by the transaction-log commit. Each constructor
carries the state left committed in the database at that point. -/
inductive FacadeResult
  | ok (st : FacadeState)
  | notFound (st : FacadeState)
  | storageFailure (st : FacadeState)
deriving DecidableEq, Repr

/-- `TransactionFacade.process_deposit` from `no_solid_app/helpers/facade.py`:
validate the account exists, commit the balance change via
`AccountUpdater.add_funds` (its own `db.commit()`), then commit the deposit
record via `TransactionCreator.create_deposit_transaction` (a second,
separate `db.commit()`). There is no amount validation. `append_ok` models
whether that second, log-appending commit succeeds at the storage layer; when
it fails the balance change has already been committed and stays. -/
def TransactionFacade.process_deposit (st : FacadeState) (account_id : Nat)
    (amount : Int) (append_ok : Bool) : FacadeResult :=
  match findAccount st.accounts account_id with
  | none => .notFound st
  | some account =>
    let committed : FacadeState :=
      { st with accounts := AccountUpdater.add_funds st.accounts account_id amount }
    if append_ok then
      .ok { committed with
        log := committed.log ++ [⟨account.accId, none, .deposit, amount⟩] }
    else
      .storageFailure committed

/-- C3 counterexample: a deposit of 50 on balance 100 whose log append fails
leaves the committed balance at 150 with an empty transaction table — the
balance change is not rolled back and no record exists for it. -/
theorem facade_deposit_append_fail_partial_commit :
    TransactionFacade.process_deposit ⟨[⟨1, 100, .checking, .active⟩], []⟩ 1 50 false =
      .storageFailure ⟨[⟨1, 150, .checking, .active⟩], []⟩ := by
  rfl

/-- C3 (amended): in `TransactionFacade.process_deposit` the balance mutation
is committed by `AccountUpdater.add_funds` before the transaction-log append
runs; when the append fails, the operation ends in a storage failure whose
committed state keeps the mutated balance (total shifted by the full amount)
and has no new transaction record — the unit of work is not rolled back. -/
theorem facade_append_failure_keeps_committed_balance (fst : FacadeState)
    (i : Nat) (amount : Int) (a : Account)
    (hfind : findAccount fst.accounts i = some a) :
    TransactionFacade.process_deposit fst i amount false =
      .storageFailure ⟨AccountUpdater.add_funds fst.accounts i amount, fst.log⟩ ∧
    sumBalances (AccountUpdater.add_funds fst.accounts i amount) =
      sumBalances fst.accounts + amount := by
  constructor
  · simp only [TransactionFacade.process_deposit, hfind]
    rfl
  · exact adjustFirst_sum fst.accounts i amount (by simp [hfind])

/-- C3 witness: the amended statement at one account of balance 100 and a
deposit of 50 whose append fails. -/
theorem facade_append_failure_keeps_committed_balance_witness :
    TransactionFacade.process_deposit ⟨[⟨1, 100, .checking, .active⟩], []⟩ 1 50 false =
      .storageFailure ⟨AccountUpdater.add_funds [⟨1, 100, .checking, .active⟩] 1 50, []⟩ ∧
    sumBalances (AccountUpdater.add_funds [⟨1, 100, .checking, .active⟩] 1 50) =
      sumBalances [⟨1, 100, .checking, .active⟩] + 50 :=
  facade_append_failure_keeps_committed_balance ⟨[⟨1, 100, .checking, .active⟩], []⟩
    1 50 ⟨1, 100, .checking, .active⟩ rfl

/-- C7 counterexample: `Deposit(acc, -5)` through
`TransactionFacade.process_deposit` is not rejected as an invalid argument:
the balance drops from 100 to 95 and a DEPOSIT record of -5 is committed. -/
theorem facade_deposit_negative_amount_applied :
    TransactionFacade.process_deposit ⟨[⟨1, 100, .checking, .active⟩], []⟩ 1 (-5) true =
      .ok ⟨[⟨1, 95, .checking, .active⟩], [⟨1, none, .deposit, -5⟩]⟩ := by
  rfl

/-- C7 (amended): `AccountOperations.deposit` / `withdraw` / `transfer`
reject `amount <= 0` with an invalid-argument error before any store access,
mutating nothing and writing no record; but `TransactionFacade.process_deposit`
of `facade.py` performs no amount validation and executes the nonpositive
deposit, mutating the balance and writing a record for it. -/
theorem deposit_nonpositive_amount (st : LedgerState) (fst : FacadeState)
    (i j : Nat) (amount : Int) (a : Account)
    (hle : amount ≤ 0) (hfind : findAccount fst.accounts i = some a) :
    AccountOperations.deposit st i amount = .error .invalidArgument ∧
    AccountOperations.withdraw st i amount = .error .invalidArgument ∧
    AccountOperations.transfer st i j amount = .error .invalidArgument ∧
    TransactionFacade.process_deposit fst i amount true =
      .ok ⟨AccountUpdater.add_funds fst.accounts i amount,
        fst.log ++ [⟨a.accId, none, .deposit, amount⟩]⟩ := by
  refine ⟨?_, ?_, ?_, ?_⟩
  · simp only [AccountOperations.deposit]
    rw [if_pos hle]
  · simp only [AccountOperations.withdraw]
    rw [if_pos hle]
  · simp only [AccountOperations.transfer]
    rw [if_pos hle]
  · simp only [TransactionFacade.process_deposit, hfind]
    rfl

/-- C7 witness: the amended statement at Scenario 4's input, a deposit of -5
on an account of balance 100. -/
theorem deposit_nonpositive_amount_witness :
    AccountOperations.deposit ⟨[⟨1, 100, .checking, .active⟩], []⟩ 1 (-5) =
      .error .invalidArgument ∧
    AccountOperations.withdraw ⟨[⟨1, 100, .checking, .active⟩], []⟩ 1 (-5) =
      .error .invalidArgument ∧
    AccountOperations.transfer ⟨[⟨1, 100, .checking, .active⟩], []⟩ 1 2 (-5) =
      .error .invalidArgument ∧
    TransactionFacade.process_deposit ⟨[⟨1, 100, .checking, .active⟩], []⟩ 1 (-5) true =
      .ok ⟨AccountUpdater.add_funds [⟨1, 100, .checking, .active⟩] 1 (-5),
        [] ++ [⟨1, none, .deposit, -5⟩]⟩ :=
  deposit_nonpositive_amount ⟨[⟨1, 100, .checking, .active⟩], []⟩
    ⟨[⟨1, 100, .checking, .active⟩], []⟩ 1 2 (-5)
    ⟨1, 100, .checking, .active⟩ (by decide) rfl

/-- Python-level storage type of a model field, for the representation claims
about balances. -/
inductive PyType
  | intType
  | strType
  | floatType
  | decimalType
  | uuidType
  | datetimeType
deriving DecidableEq, Repr

/-- A declared model field: its name and its storage type. -/
structure FieldSpec where
  fieldName : String
  fieldType : PyType
deriving DecidableEq, Repr

/-- The `Account` table of `no_solid_app/database/models.py` (lines 39-55):
`balance: float = Field(default=0.0)`. -/
def noSolidAccountFields : List FieldSpec :=
  [⟨"id", .intType⟩, ⟨"account_id", .strType⟩, ⟨"document_id", .strType⟩,
   ⟨"balance", .floatType⟩, ⟨"account_type", .strType⟩, ⟨"status", .strType⟩,
   ⟨"created_at", .datetimeType⟩]

/-- The `AccountBase` model of `solid_app/models/models.py`:
`balance: Decimal = Decimal("0")`. -/
def solidAccountBaseFields : List FieldSpec :=
  [⟨"account_id", .uuidType⟩, ⟨"document_id", .strType⟩,
   ⟨"balance", .decimalType⟩, ⟨"account_type", .strType⟩,
   ⟨"status", .strType⟩]

/-- The result dictionary of `AccountOperations.deposit`
(`account_operations.py` lines 92-100): `amount` and `new_balance` are built
with `float(...)`. -/
def depositResultFields : List FieldSpec :=
  [⟨"transaction_id", .uuidType⟩, ⟨"type", .strType⟩, ⟨"amount", .floatType⟩,
   ⟨"status", .strType⟩, ⟨"timestamp", .datetimeType⟩,
   ⟨"to_account_id", .intType⟩, ⟨"new_balance", .floatType⟩]

/-- Storage type of a named field of a model. -/
def fieldTypeOf (fields : List FieldSpec) (nm : String) : Option PyType :=
  (fields.find? (fun f => f.fieldName == nm)).map (fun f => f.fieldType)

/-- C8 counterexample: the stored `Account.balance` of `no_solid_app` is a
`float` column and the `new_balance` returned by `AccountOperations.deposit`
is produced by `float(...)` — balances held and returned by that app are
floating point, not fixed-point decimals. -/
theorem balance_stored_as_float :
    fieldTypeOf noSolidAccountFields "balance" = some .floatType ∧
    fieldTypeOf depositResultFields "new_balance" = some .floatType := by
  exact ⟨rfl, rfl⟩

/-- C8 (amended): the `solid_app` model keeps `balance` as a `Decimal`, but
the `no_solid_app` model stores `balance` as a `float` and the operation
results of `AccountOperations` convert balances and amounts through
`float(...)`; the no-floating-point rule holds only for the `solid_app`
model, not across the system. -/
theorem balance_representation_split :
    fieldTypeOf solidAccountBaseFields "balance" = some .decimalType ∧
    fieldTypeOf noSolidAccountFields "balance" = some .floatType ∧
    fieldTypeOf noSolidAccountFields "balance" ≠ some .decimalType ∧
    fieldTypeOf depositResultFields "new_balance" ≠ some .decimalType := by
  refine ⟨rfl, rfl, ?_, ?_⟩ <;> decide

/-- A committed transaction row as read back by the history queries: the
columns of the `Transaction` table together with its `timestamp`. -/
structure TransactionRow where
  ttype : TransactionType
  amount : Int
  tstatus : TransactionStatus
  from_account_id : Option Nat
  to_account_id : Option Nat
  timestamp : Nat
deriving DecidableEq, Repr

/-- Timestamp order on rows, ascending: the `order_by(Transaction.timestamp)`
of `GetTransactionsCommand.execute`. -/
def tsLe (a b : TransactionRow) : Prop := a.timestamp ≤ b.timestamp

/-- Timestamp order on rows, descending: the `order_by(timestamp.desc())` and
`sort(key=..., reverse=True)` of `get_transaction_history`. -/
def tsGe (a b : TransactionRow) : Prop := b.timestamp ≤ a.timestamp

instance : DecidableRel tsLe := fun a b =>
  inferInstanceAs (Decidable (a.timestamp ≤ b.timestamp))

instance : DecidableRel tsGe := fun a b =>
  inferInstanceAs (Decidable (b.timestamp ≤ a.timestamp))

instance : IsTotal TransactionRow tsLe :=
  ⟨fun a b => Nat.le_total a.timestamp b.timestamp⟩

instance : IsTrans TransactionRow tsLe :=
  ⟨fun _ _ _ => Nat.le_trans⟩

instance : IsTotal TransactionRow tsGe :=
  ⟨fun a b => Nat.le_total b.timestamp a.timestamp⟩

instance : IsTrans TransactionRow tsGe :=
  ⟨fun _ _ _ h1 h2 => Nat.le_trans h2 h1⟩

/-- The query of `GetTransactionsCommand.execute` in
`solid_app/helpers/commands.py`: rows where the account is sender or
receiver, ordered by timestamp ascending (a stable sort stands in for the
SQL `order_by`). -/
def GetTransactionsCommand.query (rows : List TransactionRow) (acc : Nat) :
    List TransactionRow :=
  List.insertionSort tsLe
    (rows.filter
      (fun t => t.from_account_id == some acc || t.to_account_id == some acc))

/-- `TransactionFacade.get_transaction_history` from
`no_solid_app/helpers/transaction_facade.py`: the newest `limit` incoming
rows, the newest `limit` outgoing rows, their concatenation re-sorted newest
first (`sort(key=timestamp, reverse=True)` is a stable descending sort), and
the first `limit` of that. -/
def TransactionFacade.get_transaction_history (rows : List TransactionRow)
    (acc : Nat) (limit : Nat) : List TransactionRow :=
  let incoming :=
    (List.insertionSort tsGe
      (rows.filter (fun t => t.to_account_id == some acc))).take limit
  let outgoing :=
    (List.insertionSort tsGe
      (rows.filter (fun t => t.from_account_id == some acc))).take limit
  (List.insertionSort tsGe (incoming ++ outgoing)).take limit

/-- C9 counterexample: with two rows of timestamps 1 and 2 belonging to
account 7, `get_transaction_history` returns them newest first — timestamp
descending, not ascending as the claim states. -/
theorem history_listing_descending :
    TransactionFacade.get_transaction_history
        [⟨.deposit, 10, .completed, none, some 7, 1⟩,
         ⟨.deposit, 20, .completed, none, some 7, 2⟩] 7 10 =
      [⟨.deposit, 20, .completed, none, some 7, 2⟩,
       ⟨.deposit, 10, .completed, none, some 7, 1⟩] ∧
    ¬ List.Sorted tsLe
      [(⟨.deposit, 20, .completed, none, some 7, 2⟩ : TransactionRow),
       ⟨.deposit, 10, .completed, none, some 7, 1⟩] := by
  constructor
  · rfl
  · intro h
    have := List.rel_of_sorted_cons h _ (List.mem_cons_self _ _)
    simp [tsLe] at this

/-- C9 (amended): both listings are pure queries of the transaction table;
`GetTransactionsCommand` returns exactly the account's rows ordered by
timestamp ascending, while `get_transaction_history` returns its result
ordered by timestamp descending (newest first, truncated to `limit`). -/
theorem history_listing_order (rows : List TransactionRow) (acc limit : Nat) :
    List.Sorted tsLe (GetTransactionsCommand.query rows acc) ∧
    (∀ t, t ∈ GetTransactionsCommand.query rows acc ↔
      t ∈ rows ∧ (t.from_account_id = some acc ∨ t.to_account_id = some acc)) ∧
    List.Sorted tsGe (TransactionFacade.get_transaction_history rows acc limit) := by
  refine ⟨List.sorted_insertionSort tsLe _, ?_, ?_⟩
  · intro t
    rw [GetTransactionsCommand.query,
      (List.perm_insertionSort tsLe _).mem_iff, List.mem_filter]
    simp
  · exact List.Pairwise.sublist (List.take_sublist _ _)
      (List.sorted_insertionSort tsGe _)
